import Mathlib

/-!
Shallow embedding of the SmartSegment (SAM3) web application: types.ts,
App.tsx, components/InteractiveCanvas.tsx, components/Toolbar.tsx and
services/geminiService.ts. JavaScript numbers are modelled as exact
rationals, strings as Lean strings, and absent (undefined or null) values
as Option. The asynchronous segmentImage call is modelled by passing the
external capability response as an explicit oracle argument, and the
number of in-flight calls is tracked in an explicit counter.
-/

namespace SmartSeg

/-- PointType from types.ts: polarity of an annotation point. -/
inductive PointType where
  | POSITIVE
  | NEGATIVE
  deriving DecidableEq

/-- Point from types.ts: id, normalized coordinates, polarity. -/
structure Point where
  id : String
  x : ℚ
  y : ℚ
  type : PointType
  deriving DecidableEq

/-- AppState from types.ts. -/
inductive AppState where
  | IDLE
  | PROCESSING
  | SUCCESS
  | ERROR
  deriving DecidableEq

/-- The React state of App.tsx: appState, sourceImage, resultImage, points,
mode, errorMessage, hasApiKey, permissionError. -/
structure Session where
  appState : AppState
  sourceImage : Option String
  resultImage : Option String
  points : List Point
  mode : PointType
  errorMessage : Option String
  hasApiKey : Bool
  permissionError : Option String
  deriving DecidableEq

/-- A session together with the number of outstanding (in-flight)
segmentImage calls; the counter is instrumentation used to state the
single-flight property, it does not exist as a program variable. -/
structure Sys where
  session : Session
  outstanding : Nat
  deriving DecidableEq

/-- JavaScript falsiness of an optional string: undefined, null and the
empty string are falsy. -/
def strFalsy : Option String → Bool
  | none => true
  | some s => s == ""

/-- Is the needle a contiguous sublist of the haystack. -/
def subListOf (needle : List Char) : List Char → Bool
  | [] => needle.isEmpty
  | a :: rest => needle.isPrefixOf (a :: rest) || subListOf needle rest

/-- JavaScript String.prototype.includes, on exact strings. -/
def strContains (s pat : String) : Bool := subListOf pat.toList s.toList

/-- handleImageSelected from App.tsx lines 61-67. -/
def handleImageSelected (s : Session) (base64 : String) : Session :=
  { s with sourceImage := some base64, resultImage := none, points := [],
           appState := .IDLE, errorMessage := none }

/-- handlePointAdd from App.tsx lines 69-71: append to the point list. -/
def handlePointAdd (s : Session) (p : Point) : Session :=
  { s with points := s.points ++ [p] }

/-- handlePointRemove from App.tsx lines 73-75: keep the points whose id
differs. -/
def handlePointRemove (s : Session) (i : String) : Session :=
  { s with points := s.points.filter (fun p => p.id != i) }

/-- handleResetPoints from App.tsx lines 77-79. -/
def handleResetPoints (s : Session) : Session :=
  { s with points := [] }

/-- resetAll from App.tsx lines 105-110. It sets sourceImage, resultImage,
points and appState; it does not touch errorMessage. -/
def resetAll (s : Session) : Session :=
  { s with sourceImage := none, resultImage := none, points := [],
           appState := .IDLE }

/-- The synchronous head of handleProcess (App.tsx lines 81-86): the guarded
precondition, then the transition into PROCESSING which clears errorMessage
and starts one segmentImage request. -/
def handleProcessStart (sys : Sys) : Sys :=
  if strFalsy sys.session.sourceImage = true ∨ sys.session.points = [] then sys
  else
    let s := { sys.session with appState := AppState.PROCESSING, errorMessage := none }
    { session := s, outstanding := sys.outstanding + 1 }

/-- permissionError text set by App.tsx line 98 when segmentImage fails with
a Permission Denied message. -/
def permissionBanner : String :=
  "Your selected API Key does not have permission to access the Gemini 3 Pro model. Please select a paid project key or enable the API."

/-- The continuation of handleProcess (App.tsx lines 87-103): resolution of
the one outstanding segmentImage call, either a result image or a thrown
error message. -/
def handleProcessResolve (sys : Sys) (res : Except String String) : Sys :=
  match res with
  | .ok img =>
      let s := { sys.session with resultImage := some img, appState := AppState.SUCCESS }
      { session := s, outstanding := sys.outstanding - 1 }
  | .error msg =>
      if strContains msg "Permission Denied" = true then
        let s := { sys.session with appState := AppState.ERROR, hasApiKey := false, permissionError := some permissionBanner }
        { session := s, outstanding := sys.outstanding - 1 }
      else
        let m := if msg == "" then "Something went wrong. Please try again." else msg
        let s := { sys.session with appState := AppState.ERROR, errorMessage := some m }
        { session := s, outstanding := sys.outstanding - 1 }

/-- The Run Segment button of Toolbar.tsx (lines 69-76): it is disabled while
isProcessing or while there are no points (App.tsx passes
hasPoints = points.length greater than 0), and a click on a disabled button
fires nothing; otherwise the click invokes handleProcess. -/
def runSegmentClick (sys : Sys) : Sys :=
  if sys.session.appState = .PROCESSING ∨ sys.session.points = [] then sys
  else handleProcessStart sys

/-- The coordinate mapping of handleImageClick (InteractiveCanvas.tsx lines
27-38): click position relative to the image bounding box, rejected when it
falls outside, normalized by the box dimensions otherwise. -/
def mapClick (clientX clientY l t width height : ℚ) : Option (ℚ × ℚ) :=
  let clickX := clientX - l
  let clickY := clientY - t
  if clickX < 0 ∨ clickX > width ∨ clickY < 0 ∨ clickY > height then none
  else some (clickX / width, clickY / height)

/-- handleImageClick (InteractiveCanvas.tsx lines 22-48) composed with
onPointAdd = handlePointAdd; the freshly generated random id is passed in as
idStr, and the polarity is the current mode. -/
def handleImageClick (s : Session) (idStr : String)
    (clientX clientY l t width height : ℚ) : Session :=
  match mapClick clientX clientY l t width height with
  | none => s
  | some r => handlePointAdd s { id := idStr, x := r.1, y := r.2, type := s.mode }

/-- A point-store operation: handlePointAdd or handlePointRemove. -/
inductive StoreOp where
  | add (p : Point)
  | remove (i : String)
  deriving DecidableEq

/-- One store operation on the point list, exactly as App.tsx performs it. -/
def applyOp (pts : List Point) : StoreOp → List Point
  | .add p => pts ++ [p]
  | .remove i => pts.filter (fun p => p.id != i)

/-- A sequence of store operations applied from the left, starting from the
empty point set. -/
def applyOps (ops : List StoreOp) : List Point := ops.foldl applyOp []

/-- The ids of the active point set. -/
def pointIds (pts : List Point) : List String := pts.map Point.id

/-- Does some point in the set carry this id. -/
def hasId (pts : List Point) (i : String) : Bool := pts.any (fun p => p.id == i)

/-- Every add in the sequence supplies an id that is fresh for the set it is
applied to; this is what the random id generator is trusted to deliver, and
it is not checked anywhere in the code. -/
def safeFrom (pts : List Point) : List StoreOp → Bool
  | [] => true
  | .add p :: rest => !hasId pts p.id && safeFrom (applyOp pts (.add p)) rest
  | .remove i :: rest => safeFrom (applyOp pts (.remove i)) rest

/-- points.filter of PointType.POSITIVE (geminiService.ts line 114). -/
def positivesOf (pts : List Point) : List Point :=
  pts.filter (fun p => p.type == PointType.POSITIVE)

/-- points.filter of PointType.NEGATIVE (geminiService.ts line 115). -/
def negativesOf (pts : List Point) : List Point :=
  pts.filter (fun p => p.type == PointType.NEGATIVE)

/-- Number.prototype.toFixed(1) on an exact nonnegative rational: round to
the nearest tenth, ties upward, and print the integer part, a decimal point,
and exactly one digit. -/
def toFixed1 (q : ℚ) : String :=
  toString ((⌊q * 10 + 1 / 2⌋ : ℤ) / 10) ++ "." ++ toString ((⌊q * 10 + 1 / 2⌋ : ℤ) % 10)

/-- One point as formatted into the prompt (geminiService.ts line 120). -/
def formatPoint (p : Point) : String :=
  "(x: " ++ toFixed1 (p.x * 100) ++ "%, y: " ++ toFixed1 (p.y * 100) ++ "%)"

/-- formatPoints (geminiService.ts lines 118-121). -/
def formatPoints (pts : List Point) : String :=
  if pts = [] then "None"
  else String.intercalate ", " (pts.map formatPoint)

/-- The prompt template (geminiService.ts lines 124-132) up to the positive
point list. -/
def promptIntro : String :=
  "\n    Act as an advanced Semantic Segmentation engine equivalent to \"Segment Anything Model 3\" (SAM3).\n    \n    TASK:\n    Extract a specific subject from the provided input image based on user interaction points.\n    \n    INPUT COORDINATES (Origin: Top-Left):\n    - POSITIVE CLICKS (Include/Add): ["

/-- The prompt template between the positive and the negative point list. -/
def promptMid : String :=
  "]\n    - NEGATIVE CLICKS (Exclude/Subtract): ["

/-- The prompt template after the negative point list (lines 133-144). -/
def promptRules : String :=
  "]\n    \n    STRICT RULES:\n    1. **Identification**: Locate the object(s) indicated by POSITIVE clicks. This is your base selection.\n    2. **Subtraction**: If NEGATIVE clicks are present, strictly REMOVE that specific semantic region from the selection. \n       - Example: If (+) is on a person and (-) is on their bag, output the person WITHOUT the bag.\n       - Example: If (+) is on a table and (-) is on a vase, output the table WITHOUT the vase.\n    3. **Output Format**: \n       - Generate an image containing ONLY the final segmented subject.\n       - The background MUST be pure WHITE (RGB 255,255,255).\n       - Maintain the original resolution and perspective of the object.\n       - Ensure high-quality edge detection (clean matte).\n  "

/-- The prompt template literal (geminiService.ts lines 124-144) with the two
formatted point lists spliced in. -/
def buildPrompt (pts : List Point) : String :=
  promptIntro ++ formatPoints (positivesOf pts) ++ promptMid
    ++ formatPoints (negativesOf pts) ++ promptRules

/-- The data:image/png;base64, header matched by the anchored regex on
geminiService.ts line 147, as a character list. -/
def pngHeader : List Char := "data:image/png;base64,".toList

/-- The data:image/jpeg;base64, header of the same regex. -/
def jpegHeader : List Char := "data:image/jpeg;base64,".toList

/-- The data:image/jpg;base64, header of the same regex. -/
def jpgHeader : List Char := "data:image/jpg;base64,".toList

/-- The data:image/webp;base64, header of the same regex. -/
def webpHeader : List Char := "data:image/webp;base64,".toList

/-- Which header the anchored regex of line 147 matches, if any; at most one
of the four alternatives can match a given string. -/
def matchHeader (cs : List Char) : Option (List Char) :=
  if pngHeader.isPrefixOf cs then some pngHeader
  else if jpegHeader.isPrefixOf cs then some jpegHeader
  else if jpgHeader.isPrefixOf cs then some jpgHeader
  else if webpHeader.isPrefixOf cs then some webpHeader
  else none

/-- imageBase64.replace of the anchored data-URI regex (line 147): strip the
matched header, otherwise return the string unchanged. -/
def stripDataUri (s : String) : String :=
  match matchHeader s.toList with
  | some h => (s.toList.drop h.length).asString
  | none => s

/-- One part of the generateContent request (geminiService.ts lines 152-163). -/
inductive ReqPart where
  | text (s : String)
  | inlineData (mimeType : String) (data : String)
  deriving DecidableEq

/-- The parts array sent to the capability (lines 150-163): the prompt text
and the image blob, whose MIME type is always declared as image/png. -/
def segmentImageRequest (imageBase64 : String) (pts : List Point) : List ReqPart :=
  [ReqPart.text (buildPrompt pts), ReqPart.inlineData "image/png" (stripDataUri imageBase64)]

/-- The inline-data part of a request, with its declared MIME type. -/
def inlineDataOf : List ReqPart → Option (String × String)
  | [] => none
  | ReqPart.text _ :: rest => inlineDataOf rest
  | ReqPart.inlineData m d :: _ => some (m, d)

/-- The inlineData field of a response part. -/
structure InlinePayload where
  mimeType : Option String
  data : Option String
  deriving DecidableEq

/-- One part of a candidate content: possibly text, possibly inline data. -/
structure RespPart where
  text : Option String
  inlineData : Option InlinePayload
  deriving DecidableEq

/-- The content of a response candidate. -/
structure Content where
  parts : List RespPart
  deriving DecidableEq

/-- One response candidate. -/
structure Candidate where
  content : Content
  deriving DecidableEq

/-- The truthiness test of geminiService.ts line 175: part.inlineData is
present and part.inlineData.data is a nonempty string; returns the mime and
the data when it passes. -/
def partImage (p : RespPart) : Option (Option String × String) :=
  match p.inlineData with
  | none => none
  | some d =>
    match d.data with
    | none => none
    | some s => if s == "" then none else some (d.mimeType, s)

/-- The for-loop of lines 174-178: the first part whose inline data is
present wins. -/
def findImage : List RespPart → Option (Option String × String)
  | [] => none
  | p :: rest =>
    match partImage p with
    | some r => some r
    | none => findImage rest

/-- The MIME fallback of line 176: mimeType or image/png when it is absent
or empty. -/
def effMime : Option String → String
  | none => "image/png"
  | some m => if m == "" then "image/png" else m

/-- The data-URI reconstructed on line 176. -/
def dataUri (r : Option String × String) : String :=
  "data:" ++ effMime r.1 ++ ";base64," ++ r.2

/-- The observable fields of a thrown error object: message, status, code. -/
structure ErrInfo where
  message : String
  status : Option String
  code : Option Nat
  deriving DecidableEq

/-- The message thrown on geminiService.ts line 106 when no API key is set. -/
def missingKeyMsg : String := "API Key is missing. Please select a key."

/-- The message thrown on line 187 for a permission failure. -/
def permissionDeniedMsg : String :=
  "Permission Denied. Please ensure you have selected a valid API Key with access to the Gemini API."

/-- The fallback message of line 189 when the caught error carries no
message. -/
def genericFallbackMsg : String := "Failed to segment image."

/-- The message thrown on line 181 when no part carries image data. -/
def noImageMsg : String := "No image was returned by the model. Please try adjusting your points."

/-- The permission test of line 186: the message contains 403, or the status
is PERMISSION_DENIED, or the code is 403. -/
def isPermissionErr (e : ErrInfo) : Bool :=
  strContains e.message "403" || e.status == some "PERMISSION_DENIED" || e.code == some 403

/-- The catch block of lines 183-190: classify and rethrow. -/
def catchClassify (e : ErrInfo) : String :=
  if isPermissionErr e = true then permissionDeniedMsg
  else if e.message == "" then genericFallbackMsg
  else e.message

/-- segmentImage (geminiService.ts lines 99-191) with the network call
abstracted into an oracle argument cap: the external capability either
throws an error or returns a candidate list. The result is the thrown
message or the reconstructed data-URI. The thrown no-image error of line 181
passes through the catch block of lines 183-190 like every other throw
inside the try. -/
def segmentImage (apiKey : Option String) (imageBase64 : String) (pts : List Point)
    (cap : Except ErrInfo (List Candidate)) : Except String String :=
  if strFalsy apiKey = true then .error missingKeyMsg
  else
    match cap with
    | .error e => .error (catchClassify e)
    | .ok cands =>
      match cands with
      | [] => .error (catchClassify { message := noImageMsg, status := none, code := none })
      | c :: _ =>
        match findImage c.content.parts with
        | some r => .ok (dataUri r)
        | none => .error (catchClassify { message := noImageMsg, status := none, code := none })

/-! Concrete sessions used by witnesses. -/

/-- A session in the middle of a segmentation attempt. -/
def procSession : Session :=
  ⟨AppState.PROCESSING, some "img", none, [⟨"a", 1/2, 1/2, PointType.POSITIVE⟩],
   PointType.POSITIVE, none, true, none⟩

/-- The initial session: no image, no points. -/
def idleSession : Session :=
  ⟨AppState.IDLE, none, none, [], PointType.POSITIVE, none, true, none⟩

/-- A session showing an error message. -/
def errSession : Session :=
  ⟨AppState.ERROR, some "img", none, [], PointType.POSITIVE, some "boom", true, none⟩

/-- C1: while the session state is PROCESSING, a process trigger (a click on
the Run Segment button, which Toolbar.tsx disables while isProcessing) has no
effect: no session field changes and no second request is started; the
outstanding attempt can only resolve to SUCCESS or ERROR. -/
theorem C1_single_flight (sys : Sys) (h : sys.session.appState = AppState.PROCESSING) :
    runSegmentClick sys = sys ∧
    ∀ res : Except String String,
      (handleProcessResolve sys res).session.appState = AppState.SUCCESS ∨
      (handleProcessResolve sys res).session.appState = AppState.ERROR := by
  constructor
  · unfold runSegmentClick
    rw [if_pos (Or.inl h)]
  · intro res
    cases res with
    | ok img => left; rfl
    | error msg =>
      right
      by_cases hc : strContains msg "Permission Denied" = true <;>
        simp [handleProcessResolve, hc]

/-- C1 witness: a concrete PROCESSING system is left untouched by a second
process trigger. -/
theorem C1_single_flight_witness : runSegmentClick ⟨procSession, 1⟩ = ⟨procSession, 1⟩ :=
  (C1_single_flight ⟨procSession, 1⟩ rfl).1

/-- C5 counterexample: resetAll does not clear the error message; on a
concrete session showing an error, the message survives the reset, refuting
the claim that reset clears it. -/
theorem C5_reset_counterexample : (resetAll errSession).errorMessage ≠ none := by
  decide

/-- C5 (amended): resetAll transitions the session to IDLE and clears the
source image, the point set and the result image; the error message (as well
as the mode, the key flag and the permission banner) is left unchanged. -/
theorem C5_reset_all_amended (s : Session) :
    (resetAll s).appState = AppState.IDLE ∧
    (resetAll s).sourceImage = none ∧
    (resetAll s).resultImage = none ∧
    (resetAll s).points = [] ∧
    (resetAll s).errorMessage = s.errorMessage ∧
    (resetAll s).mode = s.mode ∧
    (resetAll s).hasApiKey = s.hasApiKey ∧
    (resetAll s).permissionError = s.permissionError :=
  ⟨rfl, rfl, rfl, rfl, rfl, rfl, rfl, rfl⟩

/-- C8: loading a new source image empties the point set, clears the result
image and the error message, stores the new image and returns to IDLE,
whatever the previous session state was. -/
theorem C8_new_image_reset (s : Session) (base64 : String) :
    (handleImageSelected s base64).points = [] ∧
    (handleImageSelected s base64).resultImage = none ∧
    (handleImageSelected s base64).appState = AppState.IDLE ∧
    (handleImageSelected s base64).errorMessage = none ∧
    (handleImageSelected s base64).sourceImage = some base64 ∧
    (handleImageSelected s base64).mode = s.mode :=
  ⟨rfl, rfl, rfl, rfl, rfl, rfl⟩

/-- C9: with no source image or an empty point set, handleProcess returns
before doing anything: the whole system, every session field included, is
unchanged. -/
theorem C9_guarded_process (sys : Sys)
    (h : sys.session.sourceImage = none ∨ sys.session.points = []) :
    handleProcessStart sys = sys := by
  unfold handleProcessStart
  cases h with
  | inl h => rw [if_pos (Or.inl (by rw [h]; rfl))]
  | inr h => rw [if_pos (Or.inr h)]

/-- C9 witness: the initial session (no image, no points) is untouched by a
process trigger. -/
theorem C9_guarded_process_witness : handleProcessStart ⟨idleSession, 0⟩ = ⟨idleSession, 0⟩ :=
  C9_guarded_process ⟨idleSession, 0⟩ (Or.inl rfl)

lemma not_mem_pointIds_of_hasId_false {pts : List Point} {i : String}
    (h : hasId pts i = false) : i ∉ pointIds pts := by
  simp only [hasId, List.any_eq_false, beq_iff_eq] at h
  simp only [pointIds, List.mem_map]
  rintro ⟨p, hp, he⟩
  exact h p hp he

lemma nodup_applyOp_add {pts : List Point} {p : Point}
    (hn : (pointIds pts).Nodup) (hf : p.id ∉ pointIds pts) :
    (pointIds (applyOp pts (StoreOp.add p))).Nodup := by
  simp only [applyOp, pointIds, List.map_append, List.map_cons, List.map_nil] at *
  simp [List.nodup_append, hn, hf]

lemma nodup_applyOp_remove {pts : List Point} {i : String}
    (hn : (pointIds pts).Nodup) :
    (pointIds (applyOp pts (StoreOp.remove i))).Nodup := by
  simp only [applyOp, pointIds]
  exact List.Nodup.sublist (List.Sublist.map Point.id (List.filter_sublist pts)) hn

lemma safeFrom_nodup : ∀ (ops : List StoreOp) (pts : List Point),
    (pointIds pts).Nodup → safeFrom pts ops = true →
    (pointIds (ops.foldl applyOp pts)).Nodup := by
  intro ops
  induction ops with
  | nil => intro pts hn _; simpa using hn
  | cons op rest ih =>
    intro pts hn hs
    cases op with
    | add p =>
      simp only [safeFrom, Bool.and_eq_true, Bool.not_eq_true'] at hs
      obtain ⟨h1, h2⟩ := hs
      have hf : p.id ∉ pointIds pts := not_mem_pointIds_of_hasId_false h1
      simpa using ih (applyOp pts (StoreOp.add p)) (nodup_applyOp_add hn hf) h2
    | remove i =>
      simp only [safeFrom] at hs
      simpa using ih (applyOp pts (StoreOp.remove i)) (nodup_applyOp_remove hn) hs

lemma safeFrom_append_left : ∀ (pre suf : List StoreOp) (pts : List Point),
    safeFrom pts (pre ++ suf) = true → safeFrom pts pre = true := by
  intro pre
  induction pre with
  | nil => intro suf pts _; rfl
  | cons op rest ih =>
    intro suf pts hsafe
    cases op with
    | add p =>
      simp only [List.cons_append, safeFrom, Bool.and_eq_true] at hsafe ⊢
      exact ⟨hsafe.1, ih suf _ hsafe.2⟩
    | remove i =>
      simp only [List.cons_append, safeFrom] at hsafe ⊢
      exact ih suf _ hsafe

lemma remove_noop {pts : List Point} {i : String} (hi : i ∉ pointIds pts) :
    applyOp pts (StoreOp.remove i) = pts := by
  simp only [applyOp]
  apply List.filter_eq_self.mpr
  intro p hp
  simp only [bne_iff_ne, ne_eq]
  intro he
  exact hi (by simp only [pointIds, List.mem_map]; exact ⟨p, hp, he⟩)

/-- C2 counterexample: the store never checks id uniqueness; a sequence of
two adds carrying the same id (which the random generator may produce)
leaves the id twice in the active set, refuting the claim for arbitrary
add and remove sequences. -/
theorem C2_unique_ids_counterexample :
    ¬ (pointIds (applyOps
        [StoreOp.add ⟨"a", 0, 0, PointType.POSITIVE⟩,
         StoreOp.add ⟨"a", 1, 1, PointType.NEGATIVE⟩])).Nodup := by
  decide

/-- C2 (amended): provided every add supplies an id that is fresh for the
set it is applied to (what the random id generator is trusted, but not
checked, to deliver), every prefix of the operation sequence leaves the
active ids without duplicates; and a remove of an id that is not in the set
is a no-op. -/
theorem C2_unique_ids_amended (ops : List StoreOp) (hsafe : safeFrom [] ops = true) :
    (∀ pre suf, ops = pre ++ suf → (pointIds (applyOps pre)).Nodup) ∧
    ∀ (pts : List Point) (i : String), i ∉ pointIds pts →
      applyOp pts (StoreOp.remove i) = pts := by
  constructor
  · intro pre suf hps
    subst hps
    exact safeFrom_nodup pre [] (by simp [pointIds]) (safeFrom_append_left pre suf [] hsafe)
  · intro pts i hi
    exact remove_noop hi

/-- A concrete operation sequence with fresh ids: add a, add b, remove a. -/
def c2ops : List StoreOp :=
  [StoreOp.add ⟨"a", 0, 0, PointType.POSITIVE⟩,
   StoreOp.add ⟨"b", 1, 1, PointType.NEGATIVE⟩,
   StoreOp.remove "a"]

/-- C2 witness: the freshness hypothesis holds for a concrete add, add,
remove sequence, and the resulting ids are duplicate-free. -/
theorem C2_unique_ids_witness :
    safeFrom [] c2ops = true ∧ (pointIds (applyOps c2ops)).Nodup :=
  ⟨by decide, (C2_unique_ids_amended c2ops (by decide)).1 c2ops [] (by simp)⟩

/-- C3: on a rendered image box of positive dimensions, a click creates a
point exactly when it falls inside the box (boundary included), the created
normalized coordinates lie in the unit interval, boundary clicks map to 0
and 1, and an outside click leaves the session untouched. -/
theorem C3_coordinate_mapping (s : Session) (idStr : String)
    (cx cy l t w h : ℚ) (hw : 0 < w) (hh : 0 < h) :
    ((l ≤ cx ∧ cx ≤ l + w ∧ t ≤ cy ∧ cy ≤ t + h) →
      mapClick cx cy l t w h = some ((cx - l) / w, (cy - t) / h) ∧
      handleImageClick s idStr cx cy l t w h =
        { s with points := s.points ++ [⟨idStr, (cx - l) / w, (cy - t) / h, s.mode⟩] } ∧
      0 ≤ (cx - l) / w ∧ (cx - l) / w ≤ 1 ∧ 0 ≤ (cy - t) / h ∧ (cy - t) / h ≤ 1 ∧
      (cx = l → (cx - l) / w = 0) ∧ (cx = l + w → (cx - l) / w = 1) ∧
      (cy = t → (cy - t) / h = 0) ∧ (cy = t + h → (cy - t) / h = 1)) ∧
    (¬(l ≤ cx ∧ cx ≤ l + w ∧ t ≤ cy ∧ cy ≤ t + h) →
      mapClick cx cy l t w h = none ∧ handleImageClick s idStr cx cy l t w h = s) := by
  constructor
  · rintro ⟨h1, h2, h3, h4⟩
    have hcond : ¬(cx - l < 0 ∨ cx - l > w ∨ cy - t < 0 ∨ cy - t > h) := by
      push_neg
      refine ⟨by linarith, by linarith, by linarith, by linarith⟩
    have hm : mapClick cx cy l t w h = some ((cx - l) / w, (cy - t) / h) := by
      simp only [mapClick]
      rw [if_neg hcond]
    refine ⟨hm, ?_, ?_, ?_, ?_, ?_, ?_, ?_, ?_, ?_⟩
    · simp [handleImageClick, hm, handlePointAdd]
    · exact div_nonneg (by linarith) hw.le
    · exact (div_le_one hw).mpr (by linarith)
    · exact div_nonneg (by linarith) hh.le
    · exact (div_le_one hh).mpr (by linarith)
    · intro he; rw [he, sub_self, zero_div]
    · intro he
      have hxw : cx - l = w := by rw [he]; ring
      rw [hxw, div_self hw.ne']
    · intro he; rw [he, sub_self, zero_div]
    · intro he
      have hyh : cy - t = h := by rw [he]; ring
      rw [hyh, div_self hh.ne']
  · intro hout
    have hcond : cx - l < 0 ∨ cx - l > w ∨ cy - t < 0 ∨ cy - t > h := by
      by_contra hc
      push_neg at hc
      obtain ⟨a, b, c, d⟩ := hc
      exact hout ⟨by linarith, by linarith, by linarith, by linarith⟩
    have hm : mapClick cx cy l t w h = none := by
      simp only [mapClick]
      rw [if_pos hcond]
    exact ⟨hm, by simp [handleImageClick, hm]⟩

/-- C3 witness: a concrete centre click on a 10 by 10 box maps to the middle
of the unit square, and a concrete click right of the box is discarded. -/
theorem C3_coordinate_mapping_witness :
    mapClick 5 5 0 0 10 10 = some (1/2, 1/2) ∧
    handleImageClick idleSession "p" 20 5 0 0 10 10 = idleSession := by
  constructor
  · have hm := ((C3_coordinate_mapping idleSession "p" 5 5 0 0 10 10
      (by norm_num) (by norm_num)).1 (by norm_num)).1
    rw [hm]
    norm_num
  · exact ((C3_coordinate_mapping idleSession "p" 20 5 0 0 10 10
      (by norm_num) (by norm_num)).2 (by norm_num)).2

lemma positivesOf_negativesOf_length (pts : List Point) :
    (positivesOf pts).length + (negativesOf pts).length = pts.length := by
  induction pts with
  | nil => rfl
  | cons p rest ih =>
    cases hp : p.type <;>
      simp [positivesOf, negativesOf, List.filter_cons, hp] at * <;> omega

lemma toFixed1_shape (q : ℚ) (hq : 0 ≤ q) :
    ∃ m k : ℤ, 0 ≤ m ∧ 0 ≤ k ∧ k < 10 ∧
      toFixed1 q = toString m ++ "." ++ toString k := by
  refine ⟨⌊q * 10 + 1/2⌋ / 10, ⌊q * 10 + 1/2⌋ % 10, ?_, ?_, ?_, rfl⟩
  · have hbase : (0:ℚ) ≤ q * 10 + 1/2 := by
      have := mul_nonneg hq (by norm_num : (0:ℚ) ≤ 10)
      linarith
    exact Int.ediv_nonneg (Int.floor_nonneg.mpr hbase) (by norm_num)
  · exact Int.emod_nonneg _ (by norm_num)
  · exact Int.emod_lt_of_pos _ (by norm_num)

/-- C7: the request carries exactly the POSITIVE points and exactly the
NEGATIVE points as two lists preserving insertion order, spliced into the
prompt template; every coordinate is printed with one digit after the
decimal point; and the add, add, add, remove scenario leaves two POSITIVE
and zero NEGATIVE points in the request. -/
theorem C7_request_building (img : String) (pts : List Point) (q : ℚ) (hq : 0 ≤ q)
    (s : Session) (hs : s.points = []) (p1 p2 p3 : Point)
    (t1 : p1.type = PointType.POSITIVE) (t2 : p2.type = PointType.POSITIVE)
    (t3 : p3.type = PointType.NEGATIVE)
    (d1 : p1.id ≠ p3.id) (d2 : p2.id ≠ p3.id) :
    (positivesOf pts).Sublist pts ∧
    (negativesOf pts).Sublist pts ∧
    (∀ p ∈ positivesOf pts, p.type = PointType.POSITIVE) ∧
    (∀ p ∈ negativesOf pts, p.type = PointType.NEGATIVE) ∧
    (∀ p ∈ pts, p.type = PointType.POSITIVE → p ∈ positivesOf pts) ∧
    (∀ p ∈ pts, p.type = PointType.NEGATIVE → p ∈ negativesOf pts) ∧
    (positivesOf pts).length + (negativesOf pts).length = pts.length ∧
    segmentImageRequest img pts =
      [ReqPart.text (promptIntro ++ formatPoints (positivesOf pts) ++ promptMid
        ++ formatPoints (negativesOf pts) ++ promptRules),
       ReqPart.inlineData "image/png" (stripDataUri img)] ∧
    (∃ m k : ℤ, 0 ≤ m ∧ 0 ≤ k ∧ k < 10 ∧
      toFixed1 q = toString m ++ "." ++ toString k) ∧
    (positivesOf (handlePointRemove
        (handlePointAdd (handlePointAdd (handlePointAdd s p1) p2) p3) p3.id).points
      = [p1, p2] ∧
     negativesOf (handlePointRemove
        (handlePointAdd (handlePointAdd (handlePointAdd s p1) p2) p3) p3.id).points
      = []) := by
  have e1 : (PointType.POSITIVE == PointType.NEGATIVE) = false := by decide
  have e2 : (PointType.POSITIVE == PointType.POSITIVE) = true := by decide
  have e3 : (PointType.NEGATIVE == PointType.NEGATIVE) = true := by decide
  have e4 : (PointType.NEGATIVE == PointType.POSITIVE) = false := by decide
  refine ⟨List.filter_sublist pts, List.filter_sublist pts, ?_, ?_, ?_, ?_,
    positivesOf_negativesOf_length pts, rfl, toFixed1_shape q hq, ?_, ?_⟩
  · intro p hp
    have := (List.mem_filter.mp hp).2
    simpa using this
  · intro p hp
    have := (List.mem_filter.mp hp).2
    simpa using this
  · intro p hp ht
    exact List.mem_filter.mpr ⟨hp, by simp [ht]⟩
  · intro p hp ht
    exact List.mem_filter.mpr ⟨hp, by simp [ht]⟩
  · simp [handlePointAdd, handlePointRemove, hs, positivesOf, List.filter_cons,
      bne_iff_ne, d1, d2, t1, t2, t3, e1, e2, e3, e4]
  · simp [handlePointAdd, handlePointRemove, hs, negativesOf, List.filter_cons,
      bne_iff_ne, d1, d2, t1, t2, t3, e1, e2, e3, e4]

/-- A concrete POSITIVE point for the scenario witness. -/
def pA : Point := ⟨"a", 0, 0, PointType.POSITIVE⟩

/-- A second concrete POSITIVE point. -/
def pB : Point := ⟨"b", 1, 0, PointType.POSITIVE⟩

/-- A concrete NEGATIVE point. -/
def pC : Point := ⟨"c", 0, 1, PointType.NEGATIVE⟩

/-- C7 witness: adding two POSITIVE points and one NEGATIVE point and then
removing the NEGATIVE one yields exactly the two POSITIVE points for the
request. -/
theorem C7_request_building_witness :
    positivesOf (handlePointRemove
        (handlePointAdd (handlePointAdd (handlePointAdd idleSession pA) pB) pC)
        pC.id).points = [pA, pB] :=
  (C7_request_building "i" [] 0 le_rfl idleSession rfl pA pB pC rfl rfl rfl
    (by decide) (by decide)).2.2.2.2.2.2.2.2.2.1

lemma isPrefixOf_append_self (p l : List Char) : p.isPrefixOf (p ++ l) = true := by
  induction p with
  | nil => simp [List.isPrefixOf]
  | cons a as ih => simp [List.isPrefixOf, ih]

lemma getElem_of_isPrefixOf : ∀ (l₁ l₂ : List Char), l₁.isPrefixOf l₂ = true →
    ∀ i (hi : i < l₁.length), ∃ hj : i < l₂.length, l₁.get ⟨i, hi⟩ = l₂.get ⟨i, hj⟩ := by
  intro l₁
  induction l₁ with
  | nil => intro l₂ _ i hi; simp at hi
  | cons a as ih =>
    intro l₂ hp i hi
    cases l₂ with
    | nil => simp [List.isPrefixOf] at hp
    | cons b bs =>
      simp only [List.isPrefixOf, Bool.and_eq_true, beq_iff_eq] at hp
      obtain ⟨hab, hrest⟩ := hp
      cases i with
      | zero => exact ⟨by simp, by simpa using hab⟩
      | succ n =>
        have hn : n < as.length := by simpa using hi
        obtain ⟨hj, he⟩ := ih bs hrest n hn
        exact ⟨by simpa using hj, by simpa using he⟩

lemma not_isPrefixOf_of_get_ne (l₁ l₂ r : List Char) (i : ℕ)
    (h₁ : i < l₁.length) (h₂ : i < l₂.length)
    (hne : l₁.get ⟨i, h₁⟩ ≠ l₂.get ⟨i, h₂⟩) :
    l₁.isPrefixOf (l₂ ++ r) = false := by
  by_contra hb
  rw [Bool.not_eq_false] at hb
  obtain ⟨hj, he⟩ := getElem_of_isPrefixOf l₁ (l₂ ++ r) hb i h₁
  rw [List.get_append i h₂] at he
  exact hne he

lemma str_toList_append (a b : String) : (a ++ b).toList = a.toList ++ b.toList := by
  cases a
  cases b
  rfl

lemma asString_toList (s : String) : s.toList.asString = s := by
  cases s
  rfl

/-- C10: the request transmitted to the capability always declares the MIME
type image/png whatever the uploaded payload was; the data-URI header is
stripped exactly when it is one of the png, jpeg, jpg or webp image headers,
and any other payload is sent unchanged. -/
theorem C10_mime_and_stripping (img : String) (pts : List Point) :
    inlineDataOf (segmentImageRequest img pts) = some ("image/png", stripDataUri img) ∧
    (∀ rest, img = "data:image/png;base64," ++ rest → stripDataUri img = rest) ∧
    (∀ rest, img = "data:image/jpeg;base64," ++ rest → stripDataUri img = rest) ∧
    (∀ rest, img = "data:image/jpg;base64," ++ rest → stripDataUri img = rest) ∧
    (∀ rest, img = "data:image/webp;base64," ++ rest → stripDataUri img = rest) ∧
    (pngHeader.isPrefixOf img.toList = false → jpegHeader.isPrefixOf img.toList = false →
     jpgHeader.isPrefixOf img.toList = false → webpHeader.isPrefixOf img.toList = false →
     stripDataUri img = img) := by
  refine ⟨rfl, ?_, ?_, ?_, ?_, ?_⟩
  · intro rest he
    subst he
    have h1 : ("data:image/png;base64," ++ rest).toList = pngHeader ++ rest.toList :=
      str_toList_append _ _
    have hmt : matchHeader (pngHeader ++ rest.toList) = some pngHeader := by
      unfold matchHeader
      rw [if_pos (isPrefixOf_append_self _ _)]
    simp only [stripDataUri, h1, hmt]
    rw [List.drop_left]
    exact asString_toList rest
  · intro rest he
    subst he
    have h1 : ("data:image/jpeg;base64," ++ rest).toList = jpegHeader ++ rest.toList :=
      str_toList_append _ _
    have hp1 : pngHeader.isPrefixOf (jpegHeader ++ rest.toList) = false :=
      not_isPrefixOf_of_get_ne _ _ _ 11 (by decide) (by decide) (by decide)
    have hmt : matchHeader (jpegHeader ++ rest.toList) = some jpegHeader := by
      unfold matchHeader
      rw [if_neg (by rw [hp1]; exact Bool.false_ne_true), if_pos (isPrefixOf_append_self _ _)]
    simp only [stripDataUri, h1, hmt]
    rw [List.drop_left]
    exact asString_toList rest
  · intro rest he
    subst he
    have h1 : ("data:image/jpg;base64," ++ rest).toList = jpgHeader ++ rest.toList :=
      str_toList_append _ _
    have hp1 : pngHeader.isPrefixOf (jpgHeader ++ rest.toList) = false :=
      not_isPrefixOf_of_get_ne _ _ _ 11 (by decide) (by decide) (by decide)
    have hp2 : jpegHeader.isPrefixOf (jpgHeader ++ rest.toList) = false :=
      not_isPrefixOf_of_get_ne _ _ _ 13 (by decide) (by decide) (by decide)
    have hmt : matchHeader (jpgHeader ++ rest.toList) = some jpgHeader := by
      unfold matchHeader
      rw [if_neg (by rw [hp1]; exact Bool.false_ne_true), if_neg (by rw [hp2]; exact Bool.false_ne_true), if_pos (isPrefixOf_append_self _ _)]
    simp only [stripDataUri, h1, hmt]
    rw [List.drop_left]
    exact asString_toList rest
  · intro rest he
    subst he
    have h1 : ("data:image/webp;base64," ++ rest).toList = webpHeader ++ rest.toList :=
      str_toList_append _ _
    have hp1 : pngHeader.isPrefixOf (webpHeader ++ rest.toList) = false :=
      not_isPrefixOf_of_get_ne _ _ _ 11 (by decide) (by decide) (by decide)
    have hp2 : jpegHeader.isPrefixOf (webpHeader ++ rest.toList) = false :=
      not_isPrefixOf_of_get_ne _ _ _ 11 (by decide) (by decide) (by decide)
    have hp3 : jpgHeader.isPrefixOf (webpHeader ++ rest.toList) = false :=
      not_isPrefixOf_of_get_ne _ _ _ 11 (by decide) (by decide) (by decide)
    have hmt : matchHeader (webpHeader ++ rest.toList) = some webpHeader := by
      unfold matchHeader
      rw [if_neg (by rw [hp1]; exact Bool.false_ne_true), if_neg (by rw [hp2]; exact Bool.false_ne_true), if_neg (by rw [hp3]; exact Bool.false_ne_true),
        if_pos (isPrefixOf_append_self _ _)]
    simp only [stripDataUri, h1, hmt]
    rw [List.drop_left]
    exact asString_toList rest
  · intro hp1 hp2 hp3 hp4
    unfold stripDataUri matchHeader
    rw [if_neg (by rw [hp1]; exact Bool.false_ne_true), if_neg (by rw [hp2]; exact Bool.false_ne_true), if_neg (by rw [hp3]; exact Bool.false_ne_true),
      if_neg (by rw [hp4]; exact Bool.false_ne_true)]

/-- C10 witness: a concrete webp payload is stripped of its header, at a
request whose declared MIME type is image/png nonetheless. -/
theorem C10_mime_and_stripping_witness :
    stripDataUri "data:image/webp;base64,XYZ" = "XYZ" :=
  (C10_mime_and_stripping "data:image/webp;base64,XYZ" []).2.2.2.2.1 "XYZ" (by decide)

lemma findImage_append (pre suf : List RespPart) (p : RespPart)
    (r : Option String × String)
    (hpre : ∀ q ∈ pre, partImage q = none) (hp : partImage p = some r) :
    findImage (pre ++ p :: suf) = some r := by
  induction pre with
  | nil => simp [findImage, hp]
  | cons a as ih =>
    have ha : partImage a = none := hpre a (by simp)
    simp only [List.cons_append, findImage, ha]
    exact ih (fun q hq => hpre q (by simp [hq]))

lemma findImage_none (parts : List RespPart) (h : ∀ q ∈ parts, partImage q = none) :
    findImage parts = none := by
  induction parts with
  | nil => rfl
  | cons a as ih =>
    have ha : partImage a = none := h a (by simp)
    simp only [findImage, ha]
    exact ih (fun q hq => h q (by simp [hq]))

lemma catchClassify_noImage :
    catchClassify { message := noImageMsg, status := none, code := none } = noImageMsg := by
  decide

/-- C6: with a key configured, the orchestrator returns the first response
part that carries inline image data, reconstructed as a data-URI with its
MIME type; when no part carries image data (or there is no candidate), the
attempt fails with the no-image message, which differs from the
authorization, missing-credential and generic transport messages. -/
theorem C6_response_interpretation (key : Option String) (hk : strFalsy key = false)
    (img : String) (pts : List Point) (cands : List Candidate) :
    (∀ (c : Candidate) (restc : List Candidate) (pre suf : List RespPart)
        (p : RespPart) (m : Option String) (d : String),
      cands = c :: restc → c.content.parts = pre ++ p :: suf →
      (∀ q ∈ pre, partImage q = none) → partImage p = some (m, d) →
      segmentImage key img pts (.ok cands) =
        .ok ("data:" ++ effMime m ++ ";base64," ++ d)) ∧
    ((cands = [] ∨
        ∃ c restc, cands = c :: restc ∧ ∀ q ∈ c.content.parts, partImage q = none) →
      segmentImage key img pts (.ok cands) = .error noImageMsg) ∧
    noImageMsg ≠ permissionDeniedMsg ∧ noImageMsg ≠ missingKeyMsg ∧
    noImageMsg ≠ genericFallbackMsg := by
  refine ⟨?_, ?_, by decide, by decide, by decide⟩
  · intro c restc pre suf p m d hc hparts hpre hp
    subst hc
    have hf : findImage c.content.parts = some (m, d) := by
      rw [hparts]
      exact findImage_append pre suf p (m, d) hpre hp
    simp [segmentImage, hk, hf, dataUri]
  · intro hni
    cases hni with
    | inl hempty =>
      subst hempty
      simp [segmentImage, hk, catchClassify_noImage]
    | inr hsome =>
      obtain ⟨c, restc, hc, hall⟩ := hsome
      subst hc
      have hf : findImage c.content.parts = none := findImage_none _ hall
      simp [segmentImage, hk, hf, catchClassify_noImage]

/-- A concrete text-only response part. -/
def wText : RespPart := ⟨some "hello", none⟩

/-- A concrete response part carrying inline image data. -/
def wImg : RespPart := ⟨none, some ⟨some "image/png", some "DATA"⟩⟩

/-- A concrete candidate holding a text part followed by an image part. -/
def wCand : Candidate := ⟨⟨[wText, wImg]⟩⟩

/-- C6 witness: on a concrete response with a text part before the image
part, the orchestrator returns the image part as a data-URI. -/
theorem C6_response_interpretation_witness :
    segmentImage (some "k") "img" [] (.ok [wCand]) = .ok "data:image/png;base64,DATA" :=
  (C6_response_interpretation (some "k") rfl "img" [] [wCand]).1 wCand [] [wText] []
    wImg (some "image/png") "DATA" rfl rfl (by decide) rfl

/-- C4 counterexample: an invalid-argument failure from the capability is
surfaced exactly like a generic failure with the same message, with its
message passed through unchanged; there is no distinct invalid-argument
classification in the orchestrator the app invokes. -/
theorem C4_error_classification_counterexample :
    segmentImage (some "k") "img" []
        (.error ⟨"Invalid request.", some "INVALID_ARGUMENT", none⟩)
      = .error "Invalid request." ∧
    segmentImage (some "k") "img" [] (.error ⟨"Invalid request.", none, none⟩)
      = .error "Invalid request." :=
  ⟨rfl, rfl⟩

/-- C4 (amended): the orchestrator distinctly classifies missing-credential
(the capability response is never consulted) and permission-denied; every
other failure, invalid-argument included, is generic: the thrown message is
passed through as-is, with a fixed fallback for an empty message; the three
classification messages are pairwise distinct. -/
theorem C4_error_classification_amended (img : String) (pts : List Point)
    (cap cap2 : Except ErrInfo (List Candidate)) (key : Option String)
    (hk : strFalsy key = false) (e : ErrInfo) :
    segmentImage none img pts cap = .error missingKeyMsg ∧
    segmentImage none img pts cap = segmentImage none img pts cap2 ∧
    (isPermissionErr e = true →
      segmentImage key img pts (.error e) = .error permissionDeniedMsg) ∧
    (isPermissionErr e = false → e.message ≠ "" →
      segmentImage key img pts (.error e) = .error e.message) ∧
    (isPermissionErr e = false → e.message = "" →
      segmentImage key img pts (.error e) = .error genericFallbackMsg) ∧
    missingKeyMsg ≠ permissionDeniedMsg ∧ missingKeyMsg ≠ genericFallbackMsg ∧
    permissionDeniedMsg ≠ genericFallbackMsg := by
  refine ⟨rfl, rfl, ?_, ?_, ?_, by decide, by decide, by decide⟩
  · intro hp
    simp [segmentImage, hk, catchClassify, hp]
  · intro hp hm
    simp [segmentImage, hk, catchClassify, hp, hm]
  · intro hp hm
    simp [segmentImage, hk, catchClassify, hp, hm]

/-- C4 witness: a concrete PERMISSION_DENIED failure is surfaced with the
distinct permission message. -/
theorem C4_error_classification_witness :
    segmentImage (some "k") "img" [] (.error ⟨"oops", some "PERMISSION_DENIED", none⟩)
      = .error permissionDeniedMsg :=
  (C4_error_classification_amended "img" [] (.ok []) (.ok []) (some "k") rfl
    ⟨"oops", some "PERMISSION_DENIED", none⟩).2.2.1 (by decide)

end SmartSeg
